import Mathlib

/-!
# Verification of the MAF filter-iterator pipeline (`src/MafIterator.h`)

A shallow embedding of the block/sequence data model and the iterator
stages of the MAF processing pipeline, together with theorems checking
the natural-language specification against the code.

Modelling conventions:
* C++ `std::string` is `List Char`; `std::deque` fronts are list heads.
* An upstream `MafIterator*` is a `List MafBlock`: `nextBlock` pops the
  head, and the end sentinel (null pointer) is the empty list.
* `unsigned int` values are `Nat`; wrap-around of unsigned arithmetic is
  written explicitly with `% 2 ^ 32` where the code can underflow.
* Exceptions are `Except String`.
* An `OutputStream` / `std::ostream` sink is the list of items written
  to it so far; a null stream pointer is `none`.
-/

namespace BppSeqOmics

/-- The MAF gap symbol of the DNA alphabet. -/
def isGap (c : Char) : Bool := c = '-'

/-- Modelled from the spec: `SequenceTools::getNumberOfSites` lives in the
underlying sequence library (not under `src/`); per the spec the derived
attribute `genomicSize` is the "count of non-gap symbols" of the content. -/
def getNumberOfSites (content : List Char) : Nat :=
  (content.filter (fun c => !isGap c)).length

/-- Embedding of `std::string::find`: index of the first occurrence of a
character, `none` standing for `std::string::npos`. -/
def strFind : List Char → Char → Option Nat
  | [], _ => none
  | c :: rest, t => if c = t then some 0 else (strFind rest t).map (· + 1)

/-- `MafSequence` (src/MafIterator.h lines 66-157): an aligned DNA sequence
with optional genomic coordinates.  `size_` is the cached genomic size, and
there is no stored stop field: `stop()` is recomputed from `begin_` and
`size_` on each call. -/
structure MafSequence where
  name : List Char
  content : List Char
  hasCoordinates_ : Bool
  begin_ : Nat
  species_ : List Char
  chromosome_ : List Char
  strand_ : Char
  size_ : Nat
  srcSize_ : Nat
deriving DecidableEq

/-- The species/chromosome extraction shared by both non-default
constructors: split on the first '.' of the name; if there is none, both
fields keep their initial empty value. -/
def splitName (nm : List Char) : List Char × List Char :=
  match strFind nm '.' with
  | some pos => (nm.take pos, nm.drop (pos + 1))
  | none => ([], [])

/-- Constructor `MafSequence(name, sequence)` (lines 85-94): no
coordinates, genomic size computed from the content, name split on the
first '.'. -/
def mkMafSequence (nm sq : List Char) : MafSequence :=
  { name := nm
    content := sq
    hasCoordinates_ := false
    begin_ := 0
    species_ := (splitName nm).1
    chromosome_ := (splitName nm).2
    strand_ := Char.ofNat 0
    size_ := getNumberOfSites sq
    srcSize_ := 0 }

/-- Constructor `MafSequence(name, sequence, begin, strand, srcSize)`
(lines 96-105): `hasCoordinates_` is initialised to `begin > 0`. -/
def mkMafSequenceCoord (nm sq : List Char) (b : Nat) (strand : Char) (srcSize : Nat) : MafSequence :=
  { name := nm
    content := sq
    hasCoordinates_ := decide (0 < b)
    begin_ := b
    species_ := (splitName nm).1
    chromosome_ := (splitName nm).2
    strand_ := strand
    size_ := getNumberOfSites sq
    srcSize_ := srcSize }

def MafSequence.hasCoordinates (s : MafSequence) : Bool := s.hasCoordinates_

/-- `start()` (lines 116-119): the stored begin, or an exception when the
sequence has no coordinates. -/
def MafSequence.start (s : MafSequence) : Except String Nat :=
  if s.hasCoordinates_ then Except.ok s.begin_
  else Except.error "MafSequence::start(). Sequence does not have coordinates."

/-- `stop()` (lines 121-124): `begin_ + size_ - 1` in unsigned arithmetic
(its only wrap is the `- 1` when both fields are zero), or an exception
when the sequence has no coordinates.  No stop field is stored. -/
def MafSequence.stop (s : MafSequence) : Except String Nat :=
  if s.hasCoordinates_ then Except.ok ((s.begin_ + s.size_ + (2 ^ 32 - 1)) % 2 ^ 32)
  else Except.error "MafSequence::stop(). Sequence does not have coordinates."

def MafSequence.getSpecies (s : MafSequence) : List Char := s.species_

def MafSequence.getChromosome (s : MafSequence) : List Char := s.chromosome_

def MafSequence.getStrand (s : MafSequence) : Char := s.strand_

def MafSequence.getGenomicSize (s : MafSequence) : Nat := s.size_

def MafSequence.getSrcSize (s : MafSequence) : Nat := s.srcSize_

/-- `removeCoordinates()` (line 114). -/
def MafSequence.removeCoordinates (s : MafSequence) : MafSequence :=
  { s with hasCoordinates_ := false, begin_ := 0 }

/-- `setStart(begin)` (line 136). -/
def MafSequence.setStart (s : MafSequence) (b : Nat) : MafSequence :=
  { s with begin_ := b, hasCoordinates_ := true }

/-!
Content mutations.  The edit itself is performed by the `SequenceWithAnnotation`
machinery of the underlying library (out of scope per the spec); the sequence
is its own listener, so right after the edit the corresponding
`after...` hook of `MafSequence` (src/MafIterator.h lines 149-156) runs.
`afterSequenceInserted`, `afterSequenceDeleted` and `afterSequenceChanged`
reassign `size_ = SequenceTools::getNumberOfSites(*this)`;
`afterSequenceSubstituted` has an empty body, so a substitution leaves the
cached `size_` untouched.
-/

/-- Insertion of symbols at a position, followed by the
`afterSequenceInserted` hook (line 152), which refreshes `size_`. -/
def MafSequence.applyInsertion (s : MafSequence) (pos : Nat) (syms : List Char) : MafSequence :=
  let c := s.content.take pos ++ syms ++ s.content.drop pos
  { s with content := c, size_ := getNumberOfSites c }

/-- Deletion of `len` symbols at a position, followed by the
`afterSequenceDeleted` hook (line 154), which refreshes `size_`. -/
def MafSequence.applyDeletion (s : MafSequence) (pos len : Nat) : MafSequence :=
  let c := s.content.take pos ++ s.content.drop (pos + len)
  { s with content := c, size_ := getNumberOfSites c }

/-- Substitution of the symbol at a position, followed by the
`afterSequenceSubstituted` hook (line 156), whose body is empty: `size_`
is NOT refreshed. -/
def MafSequence.applySubstitution (s : MafSequence) (pos : Nat) (sym : Char) : MafSequence :=
  { s with content := s.content.set pos sym }

/-- `MafBlock` (src/MafIterator.h lines 164-220): an aligned container of
`MafSequence`s plus a score and a pass tag.  The library invariant of
`AlignedSequenceContainer` is that every sequence shares one column count,
so `getNumberOfSites()` is the column count of the first sequence (0 when
the block is empty). -/
structure MafBlock where
  score_ : Int
  pass_ : Nat
  sequences : List MafSequence
deriving DecidableEq

def MafBlock.getNumberOfSequences (b : MafBlock) : Nat := b.sequences.length

def MafBlock.getNumberOfSites (b : MafBlock) : Nat :=
  match b.sequences with
  | [] => 0
  | s :: _ => s.content.length

/-!
## BlockSizeMafIterator (src/MafIterator.h lines 294-324)

The upstream `iterator_` is a list of pending blocks, the log stream
`logstream_` (inherited from `AbstractFilterMafIterator`) is `some` list of
the lines written so far, or `none` for a null stream, and `verbose_` is
the inherited verbosity flag.  `nextBlock` returns the emitted block (or
the end sentinel), the state after the call, and the list of blocks it
deleted along the way.
-/

/-- The diagnostic line written at line 316 for a discarded block. -/
def blockSizeLogLine (n : Nat) : String :=
  "BLOCK SIZE FILTER: block with size " ++ toString n ++ " was discarded."

structure BlockSizeMafIterator where
  upstream : List MafBlock
  logstream_ : Option (List String)
  verbose_ : Bool
  minSize_ : Nat
deriving DecidableEq

/-- The do/while loop of `BlockSizeMafIterator::nextBlock` (lines 307-322):
pull a block; if null, return the sentinel; if its site count is below
`minSize_`, log (when the log stream is non-null — the code never consults
`verbose_`) and delete it, and pull again; otherwise return it. -/
def blockSizeNext (minSize : Nat) (verbose : Bool) :
    List MafBlock → Option (List String) →
    Option MafBlock × BlockSizeMafIterator × List MafBlock
  | [], log => (none, ⟨[], log, verbose, minSize⟩, [])
  | b :: rest, log =>
    if b.getNumberOfSites < minSize then
      let log2 := Option.map (fun lines => lines ++ [blockSizeLogLine b.getNumberOfSites]) log
      let r := blockSizeNext minSize verbose rest log2
      (r.1, r.2.1, b :: r.2.2)
    else
      (some b, ⟨rest, log, verbose, minSize⟩, [])

def BlockSizeMafIterator.nextBlock (st : BlockSizeMafIterator) :
    Option MafBlock × BlockSizeMafIterator × List MafBlock :=
  blockSizeNext st.minSize_ st.verbose_ st.upstream st.logstream_

/-!
## Windowed filters: trash channel (src/MafIterator.h lines 472-599)

`AlignmentFilterMafIterator`, `MaskFilterMafIterator` and
`QualityFilterMafIterator` carry identical `nextRemovedBlock` bodies: if
the trash deque is empty return the null sentinel, otherwise pop and
return its front.  The `nextBlock` bodies live in a translation unit that
is not part of this repository snapshot; only the fields and
`nextRemovedBlock` are embedded, which is all the trash-channel claims
need.
-/

structure AlignmentFilterMafIterator where
  upstream : List MafBlock
  species_ : List (List Char)
  windowSize_ : Nat
  step_ : Nat
  maxGap_ : Nat
  blockBuffer_ : List MafBlock
  trashBuffer_ : List MafBlock
  window_ : List (List Bool)
  keepTrashedBlocks_ : Bool
deriving DecidableEq

/-- `AlignmentFilterMafIterator::nextRemovedBlock` (lines 502-507). -/
def AlignmentFilterMafIterator.nextRemovedBlock (st : AlignmentFilterMafIterator) :
    Option MafBlock × AlignmentFilterMafIterator :=
  match st.trashBuffer_ with
  | [] => (none, st)
  | b :: rest => (some b, { st with trashBuffer_ := rest })

structure MaskFilterMafIterator where
  upstream : List MafBlock
  species_ : List (List Char)
  windowSize_ : Nat
  step_ : Nat
  maxMasked_ : Nat
  blockBuffer_ : List MafBlock
  trashBuffer_ : List MafBlock
  window_ : List (List Bool)
  keepTrashedBlocks_ : Bool
deriving DecidableEq

/-- `MaskFilterMafIterator::nextRemovedBlock` (lines 547-552). -/
def MaskFilterMafIterator.nextRemovedBlock (st : MaskFilterMafIterator) :
    Option MafBlock × MaskFilterMafIterator :=
  match st.trashBuffer_ with
  | [] => (none, st)
  | b :: rest => (some b, { st with trashBuffer_ := rest })

structure QualityFilterMafIterator where
  upstream : List MafBlock
  species_ : List (List Char)
  windowSize_ : Nat
  step_ : Nat
  minQual_ : Nat
  blockBuffer_ : List MafBlock
  trashBuffer_ : List MafBlock
  window_ : List (List Int)
  keepTrashedBlocks_ : Bool
deriving DecidableEq

/-- `QualityFilterMafIterator::nextRemovedBlock` (lines 592-597). -/
def QualityFilterMafIterator.nextRemovedBlock (st : QualityFilterMafIterator) :
    Option MafBlock × QualityFilterMafIterator :=
  match st.trashBuffer_ with
  | [] => (none, st)
  | b :: rest => (some b, { st with trashBuffer_ := rest })

/-!
## OutputMafIterator (src/MafIterator.h lines 630-671)

The `std::ostream* output_` sink is modelled as the list of items written
to it (`none` for a null pointer).  The bodies of `writeHeader` and
`writeBlock` are in a translation unit that is not part of this
repository snapshot, so the items are abstract.
-/

inductive OutputItem where
  | header : OutputItem
  | block : MafBlock → OutputItem
deriving DecidableEq

/-- Modelled from the spec: `writeHeader` ("On construction, if a sink is
present, writes a format header"); its body is not under `src/`. -/
def writeHeader (out : List OutputItem) : List OutputItem :=
  out ++ [OutputItem.header]

/-- Modelled from the spec: `writeBlock` ("serializes it ... before
returning it unchanged"); its body is not under `src/`, so serialization
is the abstract event of the block reaching the sink. -/
def writeBlock (out : List OutputItem) (b : MafBlock) : List OutputItem :=
  out ++ [OutputItem.block b]

structure OutputMafIterator where
  upstream : List MafBlock
  output_ : Option (List OutputItem)
  mask_ : Bool
deriving DecidableEq

/-- Constructor `OutputMafIterator(iterator, out, mask)` (lines 638-643):
if the sink is non-null, the header is written immediately. -/
def mkOutputMafIterator (upstream : List MafBlock) (out : Option (List OutputItem))
    (mask : Bool) : OutputMafIterator :=
  { upstream := upstream
    output_ := Option.map writeHeader out
    mask_ := mask }

/-- `OutputMafIterator::nextBlock` (lines 661-666): pull one block
upstream; if both the sink and the block are present, serialize the block;
return the block. -/
def OutputMafIterator.nextBlock (st : OutputMafIterator) :
    Option MafBlock × OutputMafIterator :=
  match st.upstream with
  | [] => (none, { st with upstream := [] })
  | b :: rest =>
    (some b,
      { st with
        upstream := rest
        output_ := Option.map (fun out => writeBlock out b) st.output_ })

/-!
## MafIteratorSynchronizer (src/MafIterator.h lines 680-713)

`nextBlock` performs two pulls in source order: first the primary
(`iterator_`), then the secondary (`secondaryIterator_`); the secondary's
block is deleted, the primary's returned.  `pullLog` records the pulls in
the order the statements execute.
-/

inductive PullEvent where
  | pulledPrimary : PullEvent
  | pulledSecondary : PullEvent
deriving DecidableEq

structure MafIteratorSynchronizer where
  primaryUpstream : List MafBlock
  secondaryUpstream : List MafBlock
deriving DecidableEq

/-- `MafIteratorSynchronizer::nextBlock` (lines 705-711).  Returns the
primary's block, the new state, the deleted secondary block, and the pull
trace of the call. -/
def MafIteratorSynchronizer.nextBlock (st : MafIteratorSynchronizer) :
    Option MafBlock × MafIteratorSynchronizer × Option MafBlock × List PullEvent :=
  let block := st.primaryUpstream.head?
  let afterPrimary := st.primaryUpstream.tail
  let secondBlock := st.secondaryUpstream.head?
  let afterSecondary := st.secondaryUpstream.tail
  (block, ⟨afterPrimary, afterSecondary⟩, secondBlock,
    [PullEvent.pulledPrimary, PullEvent.pulledSecondary])

/-!
## Concrete test data used by witnesses and counterexamples
-/

def testSeqA : MafSequence := mkMafSequence ("hg18.chr7".toList) ("A".toList)

def testSeqACG : MafSequence := mkMafSequence ("hg18.chr7".toList) ("ACG".toList)

/-- A one-column test block. -/
def smallTestBlock : MafBlock := { score_ := -1, pass_ := 0, sequences := [testSeqA] }

/-- A three-column test block. -/
def bigTestBlock : MafBlock := { score_ := -1, pass_ := 0, sequences := [testSeqACG] }

/-!
## Helper lemmas
-/

theorem strFind_eq_none {nm : List Char} {c : Char} (h : strFind nm c = none) : c ∉ nm := by
  induction nm with
  | nil => simp
  | cons a t ih =>
    rw [strFind] at h
    by_cases hac : a = c
    · simp [hac] at h
    · simp [hac] at h
      simp [List.mem_cons, Ne.symm hac]
      exact ih h

theorem strFind_eq_some {nm : List Char} {c : Char} {p : Nat} (h : strFind nm c = some p) :
    nm.take p ++ c :: nm.drop (p + 1) = nm ∧ c ∉ nm.take p := by
  induction nm generalizing p with
  | nil => simp [strFind] at h
  | cons a t ih =>
    rw [strFind] at h
    by_cases hac : a = c
    · simp [hac] at h
      subst hac
      simp [← h]
    · simp [hac] at h
      obtain ⟨q, hq, hpq⟩ := h
      obtain ⟨hdec, hmem⟩ := ih hq
      subst hpq
      refine ⟨?_, ?_⟩
      · simpa [List.take_succ_cons, List.drop_succ_cons] using hdec
      · simp [List.take_succ_cons, List.mem_cons, Ne.symm hac]
        exact hmem

theorem head?_dropWhile_not {p : α → Bool} {l : List α} {b : α}
    (h : (l.dropWhile p).head? = some b) : p b = false := by
  induction l with
  | nil => simp at h
  | cons a t ih =>
    rw [List.dropWhile_cons] at h
    by_cases hpa : p a
    · simp [hpa] at h
      exact ih h
    · simp [hpa] at h
      subst h
      simpa using hpa

/-- The self-notifying genomic-size cache stays correct through an
insertion: `afterSequenceInserted` recomputes it. -/
theorem applyInsertion_size_fresh (s : MafSequence) (pos : Nat) (syms : List Char) :
    (s.applyInsertion pos syms).getGenomicSize =
      getNumberOfSites (s.applyInsertion pos syms).content := rfl

/-- The self-notifying genomic-size cache stays correct through a
deletion: `afterSequenceDeleted` recomputes it. -/
theorem applyDeletion_size_fresh (s : MafSequence) (pos len : Nat) :
    (s.applyDeletion pos len).getGenomicSize =
      getNumberOfSites (s.applyDeletion pos len).content := rfl

/-!
## Claim theorems
-/

/-- C1 (code_bug evidence): the class's own documentation (lines 59-61)
promises that the genomic size is recomputed "when a content modification
is performed", and the spec states the cache "must never be allowed to
fall stale" after "every insertion, deletion, substitution"; but
`afterSequenceSubstituted` (line 156) has an empty body.  Substituting the
first symbol of `"ACGT"` with a gap leaves the cached genomic size at 4
while the content holds only 3 non-gap symbols. -/
theorem mafSequence_substitution_stale_size :
    ((mkMafSequence ("hg18.chr7".toList) ("ACGT".toList)).applySubstitution 0 '-').getGenomicSize = 4
  ∧ getNumberOfSites
      (((mkMafSequence ("hg18.chr7".toList) ("ACGT".toList)).applySubstitution 0 '-').content) = 3
  ∧ ((mkMafSequence ("hg18.chr7".toList) ("ACGT".toList)).applySubstitution 0 '-').getGenomicSize ≠
      getNumberOfSites
        (((mkMafSequence ("hg18.chr7".toList) ("ACGT".toList)).applySubstitution 0 '-').content) := by
  refine ⟨rfl, rfl, ?_⟩
  decide

/-- C4: `start()` and `stop()` raise a typed exception exactly on
sequences without coordinates, and return a value on sequences with
coordinates. -/
theorem mafSequence_start_stop_coordinate_guard (s : MafSequence) :
    (s.hasCoordinates = false →
      (∃ e, s.start = Except.error e) ∧ (∃ e, s.stop = Except.error e))
  ∧ (s.hasCoordinates = true →
      (∃ n, s.start = Except.ok n) ∧ (∃ n, s.stop = Except.ok n)) := by
  unfold MafSequence.hasCoordinates MafSequence.start MafSequence.stop
  cases h : s.hasCoordinates_ <;> simp [h]

/-- C4 witness: a coordinate-free sequence errors on both accessors and a
coordinate-carrying one succeeds on both. -/
theorem mafSequence_start_stop_coordinate_guard_witness :
    ((∃ e, (mkMafSequence ("hg18.chr7".toList) ("ACGT".toList)).start = Except.error e)
      ∧ (∃ e, (mkMafSequence ("hg18.chr7".toList) ("ACGT".toList)).stop = Except.error e))
  ∧ ((∃ n, (mkMafSequenceCoord ("hg18.chr7".toList) ("ACGT".toList) 100 '+' 1000).start = Except.ok n)
      ∧ (∃ n, (mkMafSequenceCoord ("hg18.chr7".toList) ("ACGT".toList) 100 '+' 1000).stop = Except.ok n)) :=
  ⟨(mafSequence_start_stop_coordinate_guard (mkMafSequence ("hg18.chr7".toList) ("ACGT".toList))).1 rfl,
   (mafSequence_start_stop_coordinate_guard
      (mkMafSequenceCoord ("hg18.chr7".toList) ("ACGT".toList) 100 '+' 1000)).2 rfl⟩

/-- C5: on a sequence with coordinates (and within the value range of the
unsigned fields, so that the unsigned `begin_ + size_ - 1` does not wrap),
`stop()` returns `start() + getGenomicSize() - 1`.  The `MafSequence`
structure stores no stop field: `stop` recomputes from `begin_` and
`size_` on each call. -/
theorem mafSequence_stop_eq_start_add_size (s : MafSequence)
    (hc : s.hasCoordinates = true) (hpos : 0 < s.begin_ + s.size_)
    (hub : s.begin_ + s.size_ ≤ 2 ^ 32) :
    ∃ a b, s.start = Except.ok a ∧ s.stop = Except.ok b ∧ b = a + s.getGenomicSize - 1 := by
  unfold MafSequence.hasCoordinates at hc
  refine ⟨s.begin_, s.begin_ + s.size_ - 1, ?_, ?_, rfl⟩
  · simp [MafSequence.start, hc]
  · have h32 : (2 : Nat) ^ 32 = 4294967296 := by norm_num
    have harith : (s.begin_ + s.size_ + (2 ^ 32 - 1)) % 2 ^ 32 = s.begin_ + s.size_ - 1 := by
      rw [h32] at hub ⊢
      omega
    simp only [MafSequence.stop, hc, if_true, harith]

/-- C5 witness: a concrete coordinate-carrying sequence with begin 100 and
4 non-gap symbols among 5 columns has stop 103. -/
theorem mafSequence_stop_eq_start_add_size_witness :
    ∃ a b, (mkMafSequenceCoord ("hg18.chr7".toList) ("AC-GT".toList) 100 '+' 1000).start = Except.ok a
      ∧ (mkMafSequenceCoord ("hg18.chr7".toList) ("AC-GT".toList) 100 '+' 1000).stop = Except.ok b
      ∧ b = a + (mkMafSequenceCoord ("hg18.chr7".toList) ("AC-GT".toList) 100 '+' 1000).getGenomicSize - 1 :=
  mafSequence_stop_eq_start_add_size
    (mkMafSequenceCoord ("hg18.chr7".toList) ("AC-GT".toList) 100 '+' 1000)
    rfl (by decide) (by decide)

/-- C7: both constructors split the name on its FIRST '.': the species is
the dot-free prefix and the chromosome is everything after that first
dot; a name without any dot leaves both fields empty. -/
theorem mafSequence_name_split (nm sq : List Char) :
    (('.' ∈ nm) →
      (mkMafSequence nm sq).getSpecies ++ '.' :: (mkMafSequence nm sq).getChromosome = nm
        ∧ '.' ∉ (mkMafSequence nm sq).getSpecies)
  ∧ (('.' ∉ nm) →
      (mkMafSequence nm sq).getSpecies = [] ∧ (mkMafSequence nm sq).getChromosome = []) := by
  unfold mkMafSequence MafSequence.getSpecies MafSequence.getChromosome splitName
  cases h : strFind nm '.' with
  | none =>
    refine ⟨fun hmem => absurd hmem (strFind_eq_none h), fun _ => ⟨rfl, rfl⟩⟩
  | some p =>
    obtain ⟨hdec, hnotin⟩ := strFind_eq_some h
    refine ⟨fun _ => ⟨hdec, hnotin⟩, fun hnm => ?_⟩
    exact absurd (hdec ▸ (List.mem_append.2 (Or.inr (List.mem_cons_self _ _)))) hnm

/-- C7 witness: `"hg18.chr7"` splits into species `"hg18"` and chromosome
`"chr7"`, and the dot-free `"scaffold1"` leaves both fields empty. -/
theorem mafSequence_name_split_witness :
    ((mkMafSequence ("hg18.chr7".toList) ("ACGT".toList)).getSpecies ++ '.' ::
        (mkMafSequence ("hg18.chr7".toList) ("ACGT".toList)).getChromosome = "hg18.chr7".toList
      ∧ '.' ∉ (mkMafSequence ("hg18.chr7".toList) ("ACGT".toList)).getSpecies)
  ∧ ((mkMafSequence ("scaffold1".toList) ("ACGT".toList)).getSpecies = []
      ∧ (mkMafSequence ("scaffold1".toList) ("ACGT".toList)).getChromosome = []) :=
  ⟨(mafSequence_name_split ("hg18.chr7".toList) ("ACGT".toList)).1 (by decide),
   (mafSequence_name_split ("scaffold1".toList) ("ACGT".toList)).2 (by decide)⟩

/-- C10: the coordinate-taking constructor sets `hasCoordinates()` to true
exactly when the begin argument is strictly positive, so a sequence built
with begin 0 has no coordinates and its `start()` fails. -/
theorem mafSequenceCoord_hasCoordinates_iff_pos (nm sq : List Char) (b : Nat)
    (strand : Char) (srcSize : Nat) :
    ((mkMafSequenceCoord nm sq b strand srcSize).hasCoordinates = true ↔ 0 < b)
  ∧ (mkMafSequenceCoord nm sq 0 strand srcSize).start =
      Except.error "MafSequence::start(). Sequence does not have coordinates." := by
  constructor
  · simp [mkMafSequenceCoord, MafSequence.hasCoordinates]
  · rfl

/-- Full characterization of the `BlockSizeMafIterator::nextBlock` loop:
the discarded blocks are the longest under-sized prefix of the upstream,
the emitted block is the first block past it (or the end sentinel), the
remaining upstream is what follows, and the log stream (when non-null)
gains one diagnostic line per discarded block. -/
theorem blockSizeNext_characterization (m : Nat) (v : Bool) (up : List MafBlock)
    (log : Option (List String)) :
    blockSizeNext m v up log =
      ((up.dropWhile (fun b => decide (b.getNumberOfSites < m))).head?,
       ⟨(up.dropWhile (fun b => decide (b.getNumberOfSites < m))).tail,
        Option.map (fun lines => lines ++
          ((up.takeWhile (fun b => decide (b.getNumberOfSites < m))).map
            (fun b => blockSizeLogLine b.getNumberOfSites))) log,
        v, m⟩,
       up.takeWhile (fun b => decide (b.getNumberOfSites < m))) := by
  induction up generalizing log with
  | nil =>
    cases log <;> simp [blockSizeNext]
  | cons b rest ih =>
    rw [blockSizeNext]
    by_cases hb : b.getNumberOfSites < m
    · rw [if_pos hb]
      cases log <;> simp [ih, List.dropWhile_cons, List.takeWhile_cons, hb]
    · rw [if_neg hb]
      cases log <;> simp [List.dropWhile_cons, List.takeWhile_cons, hb]

/-- C2: every block the minimum-size filter returns has at least
`minSize_` sites, every block it discarded has fewer, the end sentinel is
returned only once every remaining upstream block was under-sized, and on
success the blocks consumed are exactly the discarded prefix followed by
the emitted block. -/
theorem blockSize_filter_correct (st : BlockSizeMafIterator) (r : Option MafBlock)
    (st' : BlockSizeMafIterator) (disc : List MafBlock)
    (h : st.nextBlock = (r, st', disc)) :
    (∀ b, r = some b → st.minSize_ ≤ b.getNumberOfSites)
  ∧ (∀ b ∈ disc, b.getNumberOfSites < st.minSize_)
  ∧ (r = none → ∀ b ∈ st.upstream, b.getNumberOfSites < st.minSize_)
  ∧ (∀ b, r = some b → disc ++ b :: st'.upstream = st.upstream) := by
  rw [BlockSizeMafIterator.nextBlock, blockSizeNext_characterization] at h
  injection h with hr h2
  injection h2 with hstate hdiscarded
  subst hr
  subst hdiscarded
  refine ⟨?_, ?_, ?_, ?_⟩
  · intro b hb
    have := head?_dropWhile_not hb
    simpa using this
  · intro b hb
    have := List.mem_takeWhile_imp hb
    simpa using this
  · intro hnone b hb
    have hnil : st.upstream.dropWhile (fun b => decide (b.getNumberOfSites < st.minSize_)) = [] := by
      cases hda : st.upstream.dropWhile (fun b => decide (b.getNumberOfSites < st.minSize_)) with
      | nil => rfl
      | cons x xs => rw [hda] at hnone; simp at hnone
    have := (List.dropWhile_eq_nil_iff).1 hnil b hb
    simpa using this
  · intro b hb
    have hsplit := List.takeWhile_append_dropWhile
      (p := fun b => decide (b.getNumberOfSites < st.minSize_)) (l := st.upstream)
    cases hda : st.upstream.dropWhile (fun b => decide (b.getNumberOfSites < st.minSize_)) with
    | nil => rw [hda] at hb; simp at hb
    | cons x xs =>
      rw [hda] at hb hsplit
      simp only [List.head?_cons, Option.some.injEq] at hb
      rw [← hstate]
      simp only [hda, List.tail_cons]
      rw [← hb]
      exact hsplit

/-- C2 witness: with minimum size 2, a one-column block is discarded and
the following three-column block is emitted. -/
theorem blockSize_filter_correct_witness :
    (∀ b, some bigTestBlock = some b → (2 : Nat) ≤ b.getNumberOfSites)
  ∧ (∀ b ∈ [smallTestBlock], b.getNumberOfSites < 2)
  ∧ (some bigTestBlock = none → ∀ b ∈ [smallTestBlock, bigTestBlock], b.getNumberOfSites < 2)
  ∧ (∀ b, some bigTestBlock = some b → [smallTestBlock] ++ b :: ([] : List MafBlock) = [smallTestBlock, bigTestBlock]) :=
  blockSize_filter_correct
    ⟨[smallTestBlock, bigTestBlock], some [], true, 2⟩
    (some bigTestBlock)
    ⟨[], some [blockSizeLogLine 1], true, 2⟩
    [smallTestBlock]
    (by rw [BlockSizeMafIterator.nextBlock, blockSizeNext_characterization]; rfl)

/-- C8 counterexample: the claim says the diagnostic is emitted "only when
verbose mode is enabled", but `nextBlock` (lines 313-320) never consults
`verbose_`: with `verbose_ = false` and a non-null log stream, discarding
a one-column block still writes the diagnostic line. -/
theorem blockSize_log_ignores_verbose_counterexample :
    (⟨[smallTestBlock], some [], false, 2⟩ : BlockSizeMafIterator).verbose_ = false
  ∧ ((⟨[smallTestBlock], some [], false, 2⟩ : BlockSizeMafIterator).nextBlock).2.1.logstream_
      = some [blockSizeLogLine 1] :=
  ⟨rfl, by rw [BlockSizeMafIterator.nextBlock, blockSizeNext_characterization]; rfl⟩

/-- C8 (amended): the minimum-size filter writes one diagnostic line per
discarded block whenever the log stream is present, REGARDLESS of the
verbose flag; when the log stream is null, nothing is written and the
filtering outcome (emitted block and discarded blocks) is exactly the
same, so absent logging never makes the filter fail. -/
theorem blockSize_logging_amended (st : BlockSizeMafIterator) :
    ((st.nextBlock).2.1.logstream_ =
      Option.map (fun lines => lines ++
        ((st.upstream.takeWhile (fun b => decide (b.getNumberOfSites < st.minSize_))).map
          (fun b => blockSizeLogLine b.getNumberOfSites))) st.logstream_)
  ∧ ((st.nextBlock).1 =
      ((⟨st.upstream, none, false, st.minSize_⟩ : BlockSizeMafIterator).nextBlock).1)
  ∧ ((st.nextBlock).2.2 =
      ((⟨st.upstream, none, false, st.minSize_⟩ : BlockSizeMafIterator).nextBlock).2.2) := by
  rw [BlockSizeMafIterator.nextBlock, BlockSizeMafIterator.nextBlock,
    blockSizeNext_characterization, blockSizeNext_characterization]
  exact ⟨rfl, rfl, rfl⟩

/-- C3: every `MafIteratorSynchronizer::nextBlock` call pulls exactly one
block from the primary and then exactly one from the secondary (the pull
trace is primary-then-secondary), the secondary's block is the one
disposed, the primary's block is the one returned — and even when the
primary yields the end sentinel the secondary is still advanced by one
before the sentinel is returned. -/
theorem synchronizer_nextBlock_lockstep (st : MafIteratorSynchronizer) :
    ((st.nextBlock).1 = st.primaryUpstream.head?)
  ∧ ((st.nextBlock).2.2.1 = st.secondaryUpstream.head?)
  ∧ ((st.nextBlock).2.1.primaryUpstream = st.primaryUpstream.tail)
  ∧ ((st.nextBlock).2.1.secondaryUpstream = st.secondaryUpstream.tail)
  ∧ ((st.nextBlock).2.2.2 = [PullEvent.pulledPrimary, PullEvent.pulledSecondary])
  ∧ ((st.nextBlock).1 = none →
      (st.nextBlock).2.1.secondaryUpstream = st.secondaryUpstream.tail) :=
  ⟨rfl, rfl, rfl, rfl, rfl, fun _ => rfl⟩

/-- C3 witness: with an exhausted primary and one secondary block, the
call returns the end sentinel yet still consumes the secondary block. -/
theorem synchronizer_nextBlock_lockstep_witness :
    (MafIteratorSynchronizer.nextBlock ⟨[], [bigTestBlock]⟩).2.1.secondaryUpstream =
      ([bigTestBlock] : List MafBlock).tail :=
  (synchronizer_nextBlock_lockstep ⟨[], [bigTestBlock]⟩).2.2.2.2.2 rfl

/-- C6: `OutputMafIterator` writes the format header at construction
exactly when a sink is present; each `nextBlock` returns the upstream
block unchanged (the very block upstream produced, hence with identical
sequences, score and pass tag), consuming one upstream block, and appends
its serialization to the sink exactly when both the sink and a block are
present. -/
theorem output_iterator_pass_through (u : List MafBlock) (out : List OutputItem)
    (m : Bool) (st : OutputMafIterator) :
    ((mkOutputMafIterator u (some out) m).output_ = some (out ++ [OutputItem.header]))
  ∧ ((mkOutputMafIterator u none m).output_ = none)
  ∧ ((st.nextBlock).1 = st.upstream.head?)
  ∧ ((st.nextBlock).2.upstream = st.upstream.tail)
  ∧ ((st.nextBlock).2.output_ =
      match st.output_, st.upstream.head? with
      | some o, some b => some (writeBlock o b)
      | some o, none => some o
      | none, _ => none) := by
  refine ⟨rfl, rfl, ?_, ?_, ?_⟩ <;>
    cases hu : st.upstream <;> cases ho : st.output_ <;>
      simp [OutputMafIterator.nextBlock, hu, ho]

/-- C9: for each of the three windowed filters (alignment/gap, mask,
quality), `nextRemovedBlock` returns the front (oldest) element of the
trash deque and pops it — FIFO order — and returns the end sentinel
exactly when the trash deque is empty at the moment of the call. -/
theorem windowed_nextRemovedBlock_fifo (a : AlignmentFilterMafIterator)
    (m : MaskFilterMafIterator) (q : QualityFilterMafIterator) :
    ((a.nextRemovedBlock).1 = a.trashBuffer_.head?
      ∧ (a.nextRemovedBlock).2.trashBuffer_ = a.trashBuffer_.tail
      ∧ ((a.nextRemovedBlock).1 = none ↔ a.trashBuffer_ = []))
  ∧ ((m.nextRemovedBlock).1 = m.trashBuffer_.head?
      ∧ (m.nextRemovedBlock).2.trashBuffer_ = m.trashBuffer_.tail
      ∧ ((m.nextRemovedBlock).1 = none ↔ m.trashBuffer_ = []))
  ∧ ((q.nextRemovedBlock).1 = q.trashBuffer_.head?
      ∧ (q.nextRemovedBlock).2.trashBuffer_ = q.trashBuffer_.tail
      ∧ ((q.nextRemovedBlock).1 = none ↔ q.trashBuffer_ = [])) := by
  refine ⟨⟨?_, ?_, ?_⟩, ⟨?_, ?_, ?_⟩, ⟨?_, ?_, ?_⟩⟩ <;>
    first
      | (cases ht : a.trashBuffer_ <;> simp [AlignmentFilterMafIterator.nextRemovedBlock, ht])
      | (cases ht : m.trashBuffer_ <;> simp [MaskFilterMafIterator.nextRemovedBlock, ht])
      | (cases ht : q.trashBuffer_ <;> simp [QualityFilterMafIterator.nextRemovedBlock, ht])

/-- C10 witness at concrete arguments. -/
theorem mafSequenceCoord_hasCoordinates_iff_pos_witness :
    ((mkMafSequenceCoord ("hg18.chr7".toList) ("ACGT".toList) 0 '+' 9).hasCoordinates = true ↔ 0 < 0)
  ∧ (mkMafSequenceCoord ("hg18.chr7".toList) ("ACGT".toList) 0 '+' 9).start =
      Except.error "MafSequence::start(). Sequence does not have coordinates." :=
  mafSequenceCoord_hasCoordinates_iff_pos ("hg18.chr7".toList) ("ACGT".toList) 0 '+' 9

end BppSeqOmics
